import Mathlib

/-!
# Verification of the kai_system task-scheduling core

Shallow embedding, in Lean 4, of the scheduling / session-management engine of
the `tk-daisuke/kai_system` repository:

* `src/holiday_checker.py` — recurrence evaluation
  (`check_weekday_condition`, `check_date_condition`, `should_skip_task`);
* `src/config_loader.py` — `TaskConfig.is_within_session` and
  `ConfigLoader.get_tasks_by_group_optimized`;
* `src/logic_robot.py` — `TaskRunner.check_time`, `TaskRunner.run_task`,
  `TaskRunner.run_group`.

Python strings are modelled over their ASCII fragment (the configuration
tokens the code parses are ASCII: digits, commas, "L", whitespace).  Python
`datetime` instants are modelled as absolute second counts (`Nat`), a
time-of-day being `n % 86400`; only order and equality of instants matter to
the embedded code, so this is faithful.  External collaborators (Excel COM,
downloads, dialogs, the holiday library, control flags set from the UI
thread) are modelled as explicit environment records supplying the outcome
of each observable interaction, and each read of a cross-thread flag is an
observation drawn from that environment.
-/

namespace KaiSystem

/-! ## Python string primitives (ASCII fragment) -/

/-- ASCII decimal digit, i.e. the characters for which Python `str.isdigit`
and `int` agree on the ASCII fragment. -/
def isAsciiDigit (c : Char) : Bool := '0' ≤ c && c ≤ '9'

/-- Whitespace stripped by Python `str.strip()` (ASCII fragment:
space, tab, newline, carriage return, vertical tab, form feed). -/
def isPyWs (c : Char) : Bool :=
  c = ' ' || c = '\t' || c = '\n' || c = '\r' || c.toNat = 11 || c.toNat = 12

/-- Python `str.strip()` on the ASCII fragment. -/
def pyStrip (s : String) : String :=
  ⟨((s.data.dropWhile isPyWs).reverse.dropWhile isPyWs).reverse⟩

/-- Python `str.upper()` on one ASCII character. -/
def pyUpperChar (c : Char) : Char :=
  if 'a' ≤ c && c ≤ 'z' then Char.ofNat (c.toNat - 32) else c

/-- Python `str.upper()` on the ASCII fragment. -/
def pyUpper (s : String) : String := ⟨s.data.map pyUpperChar⟩

/-- Helper for `pySplitComma`: accumulates the current (reversed) token. -/
def splitCommaAux : List Char → List Char → List String
  | [], acc => [⟨acc.reverse⟩]
  | c :: rest, acc =>
      if c = ',' then ⟨acc.reverse⟩ :: splitCommaAux rest []
      else splitCommaAux rest (c :: acc)

/-- Python `s.split(",")`: the comma-separated tokens, keeping empty ones
(`"".split(",") == [""]`, `"a,,b".split(",") == ["a","","b"]`). -/
def pySplitComma (s : String) : List String := splitCommaAux s.data []

/-- Python `str.isdigit()` on the ASCII fragment: non-empty and all
characters decimal digits. -/
def pyIsDigit (s : String) : Bool := !s.data.isEmpty && s.data.all isAsciiDigit

/-- Numeric value of a list of ASCII digits (most significant first). -/
def digitsVal (l : List Char) : Nat :=
  l.foldl (fun a c => a * 10 + (c.toNat - '0'.toNat)) 0

/-- Helper for `pyParseInt`: validity of a digit run with `_` group
separators as accepted by Python `int` (an underscore must sit between two
digits). `prevDigit` records whether the previous character was a digit. -/
def pyDigitRunOk : List Char → Bool → Bool
  | [], prevDigit => prevDigit
  | c :: rest, prevDigit =>
    if c = '_' then prevDigit && pyDigitRunOk rest false
    else isAsciiDigit c && pyDigitRunOk rest true

/-- Python `int(s)` for an already-stripped ASCII string: optional sign,
then a non-empty run of digits with optional single `_` separators.
Returns `none` where Python raises `ValueError`.  (Non-ASCII digit forms
accepted by Python are outside the modelled fragment.) -/
def pyParseInt (s : String) : Option Int :=
  match s.data with
  | '+' :: rest =>
      if pyDigitRunOk rest false then some (digitsVal (rest.filter (· ≠ '_'))) else none
  | '-' :: rest =>
      if pyDigitRunOk rest false then some (-(digitsVal (rest.filter (· ≠ '_')) : Int)) else none
  | cs =>
      if pyDigitRunOk cs false then some (digitsVal (cs.filter (· ≠ '_'))) else none

/-! ## Recurrence evaluation (`src/holiday_checker.py`) -/

/-- The facts about "today" that `holiday_checker` reads from `datetime`,
`calendar` and the `jpholiday` library.  `jpholidayAvailable = false` models
the `ImportError` branch of `is_japanese_holiday` / `get_holiday_name`.
Python guarantees `1 ≤ isoWeekday ≤ 7`; the embedding leaves the field an
arbitrary `Nat` and indexes the weekday-name table totally. -/
structure DateEnv where
  isoWeekday : Nat
  day : Nat
  lastDay : Nat
  jpholidayAvailable : Bool
  isHolidayToday : Bool
  holidayNameToday : Option String
  deriving Repr, DecidableEq

/-- `is_japanese_holiday` (holiday_checker.py:13): `jpholiday.is_holiday`
when importable, else fail-open `False`. -/
def is_japanese_holiday (d : DateEnv) : Bool :=
  if d.jpholidayAvailable then d.isHolidayToday else false

/-- `get_holiday_name` (holiday_checker.py:35): the holiday name when
`jpholiday` is importable, else `None`. -/
def get_holiday_name (d : DateEnv) : Option String :=
  if d.jpholidayAvailable then d.holidayNameToday else none

/-- The parse of `weekdays_str` performed by `check_weekday_condition`
(holiday_checker.py:75): split on commas, strip, keep non-empty tokens,
`int()` each; `none` models the `ValueError` raised when any token fails. -/
def parseWeekdayList (s : String) : Option (List Int) :=
  (((pySplitComma s).map pyStrip).filter (· ≠ "")).mapM pyParseInt

/-- `check_weekday_condition` (holiday_checker.py:55): empty filter passes;
a filter whose parse raises `ValueError` passes (fail-open); otherwise
today's ISO weekday must be listed. -/
def check_weekday_condition (weekdays_str : String) (d : DateEnv) : Bool :=
  if weekdays_str = "" || pyStrip weekdays_str = "" then true
  else
    match parseWeekdayList weekdays_str with
    | none => true
    | some allowed => allowed.contains (Int.ofNat d.isoWeekday)

/-- `check_date_condition` (holiday_checker.py:83): empty filter passes;
otherwise each comma token is stripped and upper-cased, and today matches if
some token is the sentinel `"L"` on the last day of the month, or a digit
string equal to today's day-of-month.  Tokens that are neither are silently
ignored by the `for` loop; the function returns `False` when no token
matches.  (The `except ValueError` fail-open branch of the source is
unreachable on ASCII input, because `int` succeeds on every `isdigit`
token.) -/
def check_date_condition (date_condition_str : String) (d : DateEnv) : Bool :=
  if date_condition_str = "" || pyStrip date_condition_str = "" then true
  else
    ((pySplitComma date_condition_str).map (fun c => pyUpper (pyStrip c))).any
      (fun cond =>
        (cond = "L" && d.day = d.lastDay) ||
        (pyIsDigit cond && d.day = digitsVal cond.data))

/-- The weekday-name table of `should_skip_task` (holiday_checker.py:138). -/
def weekdayNames : List String := ["", "月", "火", "水", "木", "金", "土", "日"]

/-- Reason string built by `should_skip_task` when the weekday check fails. -/
def weekdayReason (d : DateEnv) : String :=
  "曜日条件外 (今日: " ++ weekdayNames.getD d.isoWeekday "" ++ "曜日)"

/-- Reason string built by `should_skip_task` when the holiday check fails. -/
def holidayReason (d : DateEnv) : String :=
  "祝日スキップ (" ++ ((get_holiday_name d).getD "祝日") ++ ")"

/-- Reason string built by `should_skip_task` when the date check fails. -/
def dateReason (d : DateEnv) : String :=
  "日付条件外 (今日: " ++ toString d.day ++ "日)"

/-- `should_skip_task` (holiday_checker.py:123): weekday check, then holiday
check, then day-of-month check, short-circuiting at the first failure with
that condition's reason; `(false, "")` when all pass. -/
def should_skip_task (weekdays : String) (skip_holiday : Bool)
    (date_condition : String) (d : DateEnv) : Bool × String :=
  if !check_weekday_condition weekdays d then
    (true, weekdayReason d)
  else if skip_holiday && is_japanese_holiday d then
    (true, holidayReason d)
  else if !check_date_condition date_condition d then
    (true, dateReason d)
  else
    (false, "")

/-! ## Task records and session windows (`src/config_loader.py`) -/

/-- `TaskConfig` (config_loader.py:18).  Times of day are second counts in
`[0, 86400)`; the dataclass field `macro_name` is embedded as `mcrName`.
Note the dataclass has *no* `search_key` field — `run_task` nevertheless
reads `task.search_key`, which raises `AttributeError` (see
`runTaskBody`). -/
structure TaskConfig where
  group : String
  start_time : Nat
  end_time : Nat
  file_path : String
  target_sheet : String
  download_url : String
  action_after : String
  active : Bool
  task_name : String := ""
  skip_download : Bool := false
  close_after : Bool := false
  popup_message : String := ""
  mcrName : String := ""
  weekdays : String := ""
  skip_holiday : Bool := false
  date_condition : String := ""
  deriving Repr, DecidableEq

/-- Time-of-day of an absolute instant (`datetime.time()` of a `datetime`
modelled as seconds since the epoch). -/
def timeOfDay (n : Nat) : Nat := n % 86400

/-- `TaskConfig.is_within_session` (config_loader.py:42): for
`start_time ≤ end_time` the window is `[start, end]` inclusive; for
`start_time > end_time` (midnight-crossing) the instant is inside iff it is
at/after the start or at/before the end. -/
def is_within_session (t : TaskConfig) (current_time : Nat) : Bool :=
  let now_time := timeOfDay current_time
  if t.start_time ≤ t.end_time then
    decide (t.start_time ≤ now_time) && decide (now_time ≤ t.end_time)
  else
    decide (now_time ≥ t.start_time) || decide (now_time ≤ t.end_time)

/-! ## Task ordering (`ConfigLoader.get_tasks_by_group_optimized`) -/

/-- The comparison key of `sorted(group_tasks, key=lambda t: t.start_time)`
(config_loader.py:352). -/
def startLE (a b : TaskConfig) : Prop := a.start_time ≤ b.start_time

instance : DecidableRel startLE := fun _ _ => Nat.decLe _ _

/-- `sorted(group_tasks, key=lambda t: t.start_time)` (config_loader.py:352).
Python's sort is stable; a stable ascending sort of a list is unique, and
insertion sort with insertion before the first element of larger-or-equal
key is stable, so `List.insertionSort` is an exact model of `sorted`. -/
def sortByStart (l : List TaskConfig) : List TaskConfig :=
  l.insertionSort startLE

/-- First-seen order of the distinct values of a list — the key order of a
Python (ordered) `dict` built by insertion. -/
def firstSeen : List String → List String
  | [] => []
  | p :: ps => p :: firstSeen (ps.filter (fun q => q ≠ p))
  termination_by l => l.length
  decreasing_by
    simp only [List.length_cons]
    exact Nat.lt_succ_of_le (List.length_filter_le _ _)

/-- The `file_groups` `OrderedDict` of `get_tasks_by_group_optimized`
(config_loader.py:340-346): buckets keyed by `file_path`, keys in first-seen
order, each bucket holding its tasks in input order.  The recursion peels
off the first task's path together with every later task sharing it; this
is exactly the association list built by the source's insertion loop. -/
def groupByFilePath : List TaskConfig → List (String × List TaskConfig)
  | [] => []
  | t :: ts =>
      (t.file_path, t :: ts.filter (fun u => u.file_path = t.file_path)) ::
        groupByFilePath (ts.filter (fun u => u.file_path ≠ t.file_path))
  termination_by l => l.length
  decreasing_by
    simp only [List.length_cons]
    exact Nat.lt_succ_of_le (List.length_filter_le _ _)

/-- `ConfigLoader.get_tasks_by_group_optimized` (config_loader.py:320),
applied to an already-loaded task list: filter the group, group by
`file_path` in first-seen order, sort each bucket by `start_time`
(stably), and concatenate the buckets. -/
def get_tasks_by_group_optimized (tasks : List TaskConfig) (group_name : String) :
    List TaskConfig :=
  if (tasks.filter (fun t => t.group = group_name)).isEmpty then []
  else
    ((groupByFilePath (tasks.filter (fun t => t.group = group_name))).map
      (fun kv => sortByStart kv.2)).flatten

/-! ## Time-window enforcement (`TaskRunner.check_time`) -/

/-- One wake-up of the wait loop of `check_time` (logic_robot.py:448-466):
the value of `datetime.now()` at the loop test, and the values of the
`stop_requested` and `paused` flags read in that iteration.  The flags live
on the runner but are set from another thread, so each read is an
observation. -/
structure Poll where
  now : Nat
  stopRequested : Bool
  pausedFlag : Bool
  deriving Repr, DecidableEq

/-- The `while datetime.now() < wait_until` loop of `check_time`
(logic_robot.py:448-466): at each wake-up, exit with `True` once the start
instant is reached, and abort with `False` as soon as `stop_requested` is
observed; otherwise sleep into the next poll.  The poll list is the finite
trace of wake-ups; time strictly advances between polls in reality, so a
trace long enough always exists, and an exhausted trace is read as the loop
condition turning false. -/
def waitLoop (waitUntil : Nat) : List Poll → Bool
  | [] => true
  | p :: ps =>
    if p.now < waitUntil then
      if p.stopRequested then false else waitLoop waitUntil ps
    else true

/-- `TaskRunner.check_time` (logic_robot.py:387-469).  `now0` is the absolute
instant of the initial `datetime.now()`; `polls` drives the wait loop.
Mirrors the source's branch structure: force mode short-circuits; an
instant inside the session is eligible immediately; a closed window (past
the end on a normal day, or in the gap of a midnight-crossing window's
complement, or past the computed `wait_until`) is ineligible; otherwise the
runner blocks until `wait_until = datetime.combine(now.date(), start_time)`
re-checking cancellation each wake-up. -/
def check_time (t : TaskConfig) (force : Bool) (now0 : Nat) (polls : List Poll) : Bool :=
  if force then true
  else
    let now_time := timeOfDay now0
    if is_within_session t now0 then true
    else if t.start_time > t.end_time &&
            !(now_time > t.end_time && now_time < t.start_time) then false
    else if !(t.start_time > t.end_time) && now_time > t.end_time then false
    else
      let waitUntil := now0 - timeOfDay now0 + t.start_time
      if now0 > waitUntil then false
      else waitLoop waitUntil polls

/-! ## Execution dispatch (`TaskRunner.run_task`) -/

/-- Observable resource events of one `run_task` call.  `closeWb` records the
path of the workbook being closed (`excel_handler.close_workbook`), `openWb`
a successful `Workbooks.Open`, `reuseWb` the reuse branch
(logic_robot.py:503-506), `vbaRun` an `excel_app.Run` with its outcome,
`pausePrompt` the blocking `show_info` of the PAUSE action, and `saveWb` a
`save_workbook` call with its boolean result. -/
inductive REvent
  | startEx (ok : Bool)
  | reuseWb (p : String)
  | closeWb (prev : Option String)
  | openWb (p : String)
  | openFailWb (p : String)
  | quitEx
  | vbaRun (name : String) (ok : Bool)
  | pausePrompt
  | saveWb (ok : Bool)
  deriving Repr, DecidableEq

/-- The `TaskRunner` / `ExcelHandler` state that survives across tasks:
`wb` is the open workbook (its path) or `none` (`excel_handler.workbook`),
`curPath` is `self.current_workbook_path`. -/
structure RunnerSt where
  wb : Option String
  curPath : Option String
  deriving Repr, DecidableEq

/-- Outcomes of the external collaborators consumed by one `run_task` call:
the instant and wake-up trace of its own `check_time` call, and the results
of `start_excel`, `open_workbook`, `excel_app.Run`, `show_info` (raise or
ack) and `save_workbook`.  `cleanup_existing_csv`, `trigger_download`,
`wait_for_download` and `paste_data_to_sheet` need no fields: the download
branch dies on `task.search_key` before reaching them (see
`runTaskBody`). -/
structure ExecEnv where
  ctNow : Nat
  ctPolls : List Poll
  startExcelOk : Bool
  openOk : Bool
  vbaOk : Bool
  showInfoRaises : Bool
  saveOk : Bool
  deriving Repr, DecidableEq

/-- Result of the `try` body of `run_task`: a normal boolean return with the
final handler state and event trace, or an uncaught Python exception
(`exn`) carrying the state and trace at the raise point. -/
inductive BodyResult
  | ret (b : Bool) (st : RunnerSt) (tr : List REvent)
  | exn (st : RunnerSt) (tr : List REvent)
  deriving Repr, DecidableEq

/-- Lines 519-631 of `run_task`, from the download section to the final
return, starting from handler state `st` with the task's workbook open (or
being reused) and accumulated trace `tr`.

* Download section (lines 521-561): when `skip_download` is false the very
  first expression, `task.search_key` (line 523), raises `AttributeError` —
  `TaskConfig` defines no such field and none is ever assigned — so the rest
  of the download branch (cleanup, trigger, wait, paste) is unreachable;
  the raise is modelled by `BodyResult.exn`.
* Macro section (lines 568-573): `excel_app.Run` outcome is logged/warned
  only; failure does not abort.
* Action section (lines 576-615): `PAUSE` shows the blocking prompt, then
  attempts a save whose failure is only logged (the inner `try` of lines
  596-600); a raise out of `show_info` is swallowed by the outer PAUSE
  `try` (line 602) and skips the save; `NONE`/empty saves nothing; anything
  else saves, the result being discarded.
* Close section (lines 618-623): `close_after` closes the workbook and
  quits Excel, resetting `current_workbook_path`.

`afterOpenEvents` is the event trace these sections emit, in source order;
`afterOpen` pairs it with the return value and resulting state. -/
def afterOpenEvents (st : RunnerSt) (t : TaskConfig) (env : ExecEnv) : List REvent :=
  (if t.mcrName ≠ "" then [.vbaRun t.mcrName env.vbaOk] else []) ++
  (if pyUpper t.action_after = "PAUSE" then
    (if env.showInfoRaises then []
     else if st.wb ≠ none then [.pausePrompt, .saveWb env.saveOk]
     else [.pausePrompt])
   else if pyUpper t.action_after = "NONE" ∨ pyUpper t.action_after = "" then []
   else [.saveWb env.saveOk]) ++
  (if t.close_after then [.closeWb st.wb, .quitEx] else [])

def afterOpen (st : RunnerSt) (tr : List REvent) (t : TaskConfig) (env : ExecEnv) :
    BodyResult :=
  if !t.skip_download then .exn st tr
  else if t.close_after then
    .ret true ⟨none, none⟩ (tr ++ afterOpenEvents st t env)
  else
    .ret true st (tr ++ afterOpenEvents st t env)

/-- The `try` body of `run_task` (logic_robot.py:495-631): start Excel, then
either reuse the already-open workbook (same `current_workbook_path`,
workbook not `None`), or close the previous workbook (if any, without
saving) and open the task's file — a failed open quits Excel and returns
`False` — then continue with `afterOpen`. -/
def runTaskBody (st : RunnerSt) (t : TaskConfig) (env : ExecEnv) : BodyResult :=
  if !env.startExcelOk then .ret false st [.startEx false]
  else
    let tr0 : List REvent := [.startEx true]
    if st.curPath = some t.file_path ∧ st.wb ≠ none then
      afterOpen st (tr0 ++ [.reuseWb t.file_path]) t env
    else
      let st1 : RunnerSt := if st.wb ≠ none then ⟨none, st.curPath⟩ else st
      let tr1 := if st.wb ≠ none then tr0 ++ [.closeWb st.wb] else tr0
      if !env.openOk then
        .ret false st1 (tr1 ++ [.openFailWb t.file_path, .quitEx])
      else
        afterOpen ⟨some t.file_path, some t.file_path⟩
          (tr1 ++ [.openWb t.file_path]) t env

/-- `TaskRunner.run_task` (logic_robot.py:471-639): the initial `check_time`
gate (line 492, before the `try`), then the body; the `except` of line 633
converts any raise into a `False` result, closing the workbook and quitting
Excel when the task's `close_after` is set (lines 635-638). -/
def run_task (st : RunnerSt) (t : TaskConfig) (env : ExecEnv) (force : Bool) :
    Bool × RunnerSt × List REvent :=
  if !check_time t force env.ctNow env.ctPolls then (false, st, [])
  else
    match runTaskBody st t env with
    | .ret b st' tr => (b, st', tr)
    | .exn st' tr =>
        if t.close_after then (false, ⟨none, none⟩, tr ++ [.closeWb st'.wb, .quitEx])
        else (false, st', tr)

/-! ## The batch loop (`TaskRunner.run_group`) -/

/-- The result accumulator of `run_group` (logic_robot.py:652). -/
structure Results where
  success : Nat
  failed : Nat
  skipped : Nat
  deriving Repr, DecidableEq

/-- Per-iteration observations of one pass of the `run_group` loop:
`stopTop` is the `stop_requested` read of line 662; `stopAfterPause` the
re-read of line 676 (the pause-wait loop of lines 668-673 only sleeps and
touches no state the embedding tracks, so it is represented by the
post-loop flag read); `dateEnv` feeds `should_skip_task`; `ctNow`/`ctPolls`
drive the `check_time` call of line 707; `exec` supplies `run_task`'s
collaborators. -/
structure IterEnv where
  stopTop : Bool
  stopAfterPause : Bool
  dateEnv : DateEnv
  ctNow : Nat
  ctPolls : List Poll
  exec : ExecEnv

/-- The smart close-after override (logic_robot.py:683-694): when the next
task in the computed order targets the same `file_path` and the task's
`close_after` is `True`, the record is dispatched with `close_after`
temporarily `False`. -/
def effectiveTask (t : TaskConfig) (rest : List TaskConfig) : TaskConfig :=
  match rest with
  | [] => t
  | n :: _ =>
      if n.file_path = t.file_path ∧ t.close_after then
        { t with close_after := false }
      else t

/-- The restore `task.close_after = original_close_after` executed on every
continuing path of a `run_group` iteration (logic_robot.py:704, 710, 718). -/
def restoreTask (t1 : TaskConfig) (orig : Bool) : TaskConfig :=
  { t1 with close_after := orig }

/-- The `for` loop of `run_group` (logic_robot.py:660-718).  `env i` supplies
iteration `i`'s observations.  Returns the final counters, the list of task
records as left by the loop (close-after mutations included), and the final
handler state.  Break paths (a `stop_requested` read returning `True`)
return the remaining records untouched; skip paths (recurrence or time)
count `skipped`; otherwise `run_task` decides `success`/`failed`; each
continuing path restores the record's original `close_after`. -/
def run_group_aux (force : Bool) (env : Nat → IterEnv) :
    List TaskConfig → Nat → Results → RunnerSt → Results × List TaskConfig × RunnerSt
  | [], _i, acc, st => (acc, [], st)
  | t :: rest, i, acc, st =>
    let e := env i
    if e.stopTop then (acc, t :: rest, st)
    else if e.stopAfterPause then (acc, t :: rest, st)
    else
      let t1 := effectiveTask t rest
      if (should_skip_task t1.weekdays t1.skip_holiday t1.date_condition e.dateEnv).1 then
        let r := run_group_aux force env rest (i + 1)
          { acc with skipped := acc.skipped + 1 } st
        (r.1, restoreTask t1 t.close_after :: r.2.1, r.2.2)
      else if !check_time t1 force e.ctNow e.ctPolls then
        let r := run_group_aux force env rest (i + 1)
          { acc with skipped := acc.skipped + 1 } st
        (r.1, restoreTask t1 t.close_after :: r.2.1, r.2.2)
      else
        let out := run_task st t1 e.exec force
        let acc' :=
          if out.1 then { acc with success := acc.success + 1 }
          else { acc with failed := acc.failed + 1 }
        let r := run_group_aux force env rest (i + 1) acc' out.2.1
        (r.1, restoreTask t1 t.close_after :: r.2.1, r.2.2)

/-- `TaskRunner.run_group` (logic_robot.py:641-731): reset the cancellation
flag, run the loop from zeroed counters, and return the aggregate result
(no forced close of a workbook left open at the end). -/
def run_group (tasks : List TaskConfig) (force : Bool) (env : Nat → IterEnv)
    (st : RunnerSt) : Results × List TaskConfig × RunnerSt :=
  run_group_aux force env tasks 0 ⟨0, 0, 0⟩ st

/-! ## Concrete sample data (used by witnesses) -/

/-- A sample task used by witnesses: a 09:00-17:00 same-day window. -/
def sampleTask : TaskConfig :=
  { group := "G", start_time := 32400, end_time := 61200, file_path := "A.xlsx",
    target_sheet := "S", download_url := "http://example.com/a", action_after := "Save",
    active := true }

/-- A date environment used by the C1 counterexample: a Saturday the 14th
of a 31-day month, no holiday library. -/
def c1Env : DateEnv := ⟨6, 14, 31, false, false, none⟩

/-- A second sample task, same file as `sampleTask`, earlier start. -/
def sampleTask2 : TaskConfig :=
  { sampleTask with start_time := 28800, target_sheet := "S2" }

/-- A third sample task on another file. -/
def sampleTask3 : TaskConfig :=
  { sampleTask with file_path := "B.xlsx", start_time := 30000 }

/-- A collaborator environment in which every interaction succeeds. -/
def okExec : ExecEnv :=
  { ctNow := 0, ctPolls := [], startExcelOk := true, openOk := true, vbaOk := true,
    showInfoRaises := false, saveOk := true }

/-- A PAUSE task (open the file only, prompt, then save). -/
def pauseTask : TaskConfig :=
  { sampleTask with action_after := "Pause", skip_download := true }

/-- Environment where the post-PAUSE save fails. -/
def saveFailExec : ExecEnv := { okExec with saveOk := false }

/-- A task with a 10:00-12:00 window, used by the cancellation witness. -/
def c3Task : TaskConfig := { sampleTask with start_time := 36000, end_time := 43200 }

/-- The cancellation-witness task with the close-after policy set: its
successor shares `"A.xlsx"`, so the iteration also flips and restores the
policy around the skip. -/
def c3TaskB : TaskConfig := { c3Task with close_after := true }

/-- Iteration observations for the cancellation witness: at 09:00 the window
has not opened; the single wake-up of the wait loop reads the cancellation
flag as set. -/
def c3Iter0 : IterEnv :=
  { stopTop := false, stopAfterPause := false, dateEnv := c1Env, ctNow := 32400,
    ctPolls := [⟨32400, true, false⟩], exec := okExec }

/-- Iteration observations after cancellation: the flag stays set. -/
def c3IterStop : IterEnv :=
  { stopTop := true, stopAfterPause := false, dateEnv := c1Env, ctNow := 0,
    ctPolls := [], exec := okExec }

/-- The environment stream of the cancellation witness. -/
def c3Env : Nat → IterEnv := fun j => if j = 0 then c3Iter0 else c3IterStop

instance : IsTotal TaskConfig startLE := ⟨fun a b => Nat.le_total a.start_time b.start_time⟩

instance : IsTrans TaskConfig startLE := ⟨fun _ _ _ => Nat.le_trans⟩

/-! ## Helper lemmas -/

lemma append3_ne_empty (a b c : String) (hc : 0 < c.length) : a ++ b ++ c ≠ "" := by
  intro h
  have h2 := congrArg String.length h
  rw [String.length_append, String.length_append] at h2
  simp only [String.length_empty] at h2
  omega

lemma weekdayReason_ne_empty (d : DateEnv) : weekdayReason d ≠ "" :=
  append3_ne_empty _ _ _ (by decide)

lemma holidayReason_ne_empty (d : DateEnv) : holidayReason d ≠ "" := by
  unfold holidayReason
  intro h
  have h2 := congrArg String.length h
  rw [String.length_append, String.length_append] at h2
  simp only [String.length_empty] at h2
  have : 0 < (")" : String).length := by decide
  omega

lemma dateReason_ne_empty (d : DateEnv) : dateReason d ≠ "" :=
  append3_ne_empty _ _ _ (by decide)

lemma sortByStart_sorted (l : List TaskConfig) : List.Sorted startLE (sortByStart l) :=
  List.sorted_insertionSort startLE l

lemma sortByStart_perm (l : List TaskConfig) : List.Perm (sortByStart l) l :=
  List.perm_insertionSort startLE l

lemma mem_sortByStart {t : TaskConfig} {l : List TaskConfig} :
    t ∈ sortByStart l ↔ t ∈ l :=
  (sortByStart_perm l).mem_iff

lemma sortByStart_idem (l : List TaskConfig) :
    sortByStart (sortByStart l) = sortByStart l :=
  List.Sorted.insertionSort_eq (sortByStart_sorted l)

/-- Stability of the insertion step: filtering by an exact start-time value
commutes with `orderedInsert`, the inserted element landing in front of the
equal-key block exactly when its key matches. -/
lemma filter_start_orderedInsert (v : Nat) (a : TaskConfig) (l : List TaskConfig) :
    (List.orderedInsert startLE a l).filter (fun t => t.start_time = v) =
      if a.start_time = v then a :: l.filter (fun t => t.start_time = v)
      else l.filter (fun t => t.start_time = v) := by
  induction l with
  | nil =>
    by_cases hav : a.start_time = v <;>
      simp [List.orderedInsert, List.filter, hav]
  | cons b bs ih =>
    rw [List.orderedInsert]
    by_cases hab : startLE a b
    · rw [if_pos hab]
      by_cases hav : a.start_time = v <;> simp [List.filter_cons, hav]
    · rw [if_neg hab]
      unfold startLE at hab
      by_cases hav : a.start_time = v
      · have hbv : ¬ b.start_time = v := by omega
        simp [List.filter_cons, hav, hbv, ih]
      · by_cases hbv : b.start_time = v <;>
          simp [List.filter_cons, hav, hbv, ih]

/-- Stability of `sortByStart` (Python `sorted` is stable): the sublist of
tasks with any fixed start-time value is unchanged. -/
lemma sortByStart_filter_start (v : Nat) (l : List TaskConfig) :
    (sortByStart l).filter (fun t => t.start_time = v) =
      l.filter (fun t => t.start_time = v) := by
  induction l with
  | nil => rfl
  | cons a l ih =>
    have hstep : sortByStart (a :: l) = List.orderedInsert startLE a (sortByStart l) := rfl
    rw [hstep, filter_start_orderedInsert]
    by_cases hav : a.start_time = v <;> simp [List.filter_cons, hav, ih]

lemma mem_firstSeen {a : String} {l : List String} : a ∈ firstSeen l ↔ a ∈ l := by
  induction l using firstSeen.induct with
  | case1 => simp [firstSeen]
  | case2 p ps ih =>
    rw [firstSeen]
    by_cases hap : a = p
    · subst hap; simp
    · simp only [List.mem_cons, ih, List.mem_filter]
      constructor
      · rintro (rfl | ⟨h, _⟩)
        · exact Or.inl rfl
        · exact Or.inr h
      · rintro (rfl | h)
        · exact Or.inl rfl
        · exact Or.inr ⟨h, by simpa using hap⟩

lemma firstSeen_nodup (l : List String) : (firstSeen l).Nodup := by
  induction l using firstSeen.induct with
  | case1 => simp [firstSeen]
  | case2 p ps ih =>
    rw [firstSeen]
    refine List.nodup_cons.mpr ⟨?_, ih⟩
    intro hmem
    have := mem_firstSeen.mp hmem
    simp [List.mem_filter] at this

lemma map_filePath_filter (p : String) (l : List TaskConfig) :
    (l.filter (fun u => u.file_path ≠ p)).map (fun t => t.file_path) =
      (l.map (fun t => t.file_path)).filter (fun q => q ≠ p) := by
  induction l with
  | nil => rfl
  | cons a l ih => by_cases h : a.file_path = p <;> simp [h] <;> simpa using ih

/-- Characterization of the `file_groups` dict: its keys are the distinct
file paths in first-seen order, each mapped to the input-order sublist of
tasks with that path. -/
lemma groupByFilePath_eq (l : List TaskConfig) :
    groupByFilePath l =
      (firstSeen (l.map (fun t => t.file_path))).map
        (fun p => (p, l.filter (fun t => t.file_path = p))) := by
  induction l using groupByFilePath.induct with
  | case1 => simp [groupByFilePath, firstSeen]
  | case2 t ts ih =>
    rw [groupByFilePath, List.map_cons, firstSeen, List.map_cons]
    congr 1
    · simp [List.filter_cons]
    · rw [ih, map_filePath_filter]
      apply List.map_congr_left
      intro p hp
      have hpne : p ≠ t.file_path := by
        have := mem_firstSeen.mp hp
        simp [List.mem_filter] at this
        exact this.2
      have harg : (ts.filter (fun u => u.file_path ≠ t.file_path)).filter
          (fun u => u.file_path = p) = (t :: ts).filter (fun u => u.file_path = p) := by
        rw [List.filter_cons]
        rw [if_neg (by simp [Ne.symm hpne])]
        rw [List.filter_filter]
        apply List.filter_congr
        intro u _
        by_cases h : u.file_path = p
        · simp [h, hpne]
        · simp [h]
      rw [harg]

/-- Canonical form of `get_tasks_by_group_optimized`: concatenation, over
the group's distinct file paths in first-seen order, of the start-time
sorted sublists of tasks with that path. -/
lemma opt_canonical (tasks : List TaskConfig) (g : String) :
    get_tasks_by_group_optimized tasks g =
      ((firstSeen ((tasks.filter (fun t => t.group = g)).map (fun t => t.file_path))).map
        (fun p => sortByStart ((tasks.filter (fun t => t.group = g)).filter
          (fun t => t.file_path = p)))).flatten := by
  unfold get_tasks_by_group_optimized
  by_cases h : (tasks.filter (fun t => t.group = g)).isEmpty
  · rw [if_pos h]
    rw [List.isEmpty_iff] at h
    rw [h]
    simp [firstSeen]
  · rw [if_neg h, groupByFilePath_eq, List.map_map]
    rfl

/-- Regrouping a concatenation of non-empty single-path clusters with
pairwise-distinct paths returns exactly those clusters. -/
lemma groupByFilePath_flatten (L : List (String × List TaskConfig))
    (hne : ∀ kv ∈ L, kv.2 ≠ [])
    (hkey : ∀ kv ∈ L, ∀ t ∈ kv.2, t.file_path = kv.1)
    (hnd : (L.map Prod.fst).Nodup) :
    groupByFilePath ((L.map Prod.snd).flatten) = L := by
  induction L with
  | nil => simp [groupByFilePath]
  | cons kv L ih =>
    obtain ⟨p, C⟩ := kv
    obtain ⟨c, cs, rfl⟩ : ∃ c cs, C = c :: cs := by
      cases C with
      | nil => exact absurd rfl (hne ⟨p, []⟩ (List.mem_cons_self _ _))
      | cons c cs => exact ⟨c, cs, rfl⟩
    have hnd' : p ∉ List.map Prod.fst L ∧ (List.map Prod.fst L).Nodup := by
      simpa using hnd
    have hcfp : c.file_path = p :=
      hkey ⟨p, c :: cs⟩ (List.mem_cons_self _ _) c (List.mem_cons_self _ _)
    have hcs : ∀ u ∈ cs, u.file_path = p := fun u hu =>
      hkey ⟨p, c :: cs⟩ (List.mem_cons_self _ _) u (List.mem_cons_of_mem _ hu)
    have hrest : ∀ u ∈ (L.map Prod.snd).flatten, u.file_path ≠ p := by
      intro u hu
      rw [List.mem_flatten] at hu
      obtain ⟨l, hl, hul⟩ := hu
      rw [List.mem_map] at hl
      obtain ⟨kv', hkv', rfl⟩ := hl
      have hufp : u.file_path = kv'.1 := hkey kv' (List.mem_cons_of_mem _ hkv') u hul
      have hkv'ne : kv'.1 ≠ p := by
        intro he
        apply hnd'.1
        rw [← he]
        exact List.mem_map_of_mem Prod.fst hkv'
      rw [hufp]
      exact hkv'ne
    rw [List.map_cons, List.flatten_cons, List.cons_append, groupByFilePath]
    congr 1
    · rw [List.filter_append]
      rw [List.filter_eq_self.mpr (by intro u hu; simpa [hcfp] using hcs u hu)]
      rw [List.filter_eq_nil_iff.mpr
        (by intro u hu; simpa [hcfp] using hrest u hu)]
      rw [List.append_nil, hcfp]
    · rw [List.filter_append]
      rw [List.filter_eq_nil_iff.mpr
        (by intro u hu; simpa [hcfp] using hcs u hu)]
      rw [List.filter_eq_self.mpr
        (by intro u hu; simpa [hcfp] using hrest u hu)]
      rw [List.nil_append]
      exact ih (fun kv h => hne kv (List.mem_cons_of_mem _ h))
        (fun kv h => hkey kv (List.mem_cons_of_mem _ h)) hnd'.2

lemma restore_effective (t : TaskConfig) (rest : List TaskConfig) :
    restoreTask (effectiveTask t rest) t.close_after = t := by
  cases rest with
  | nil => rfl
  | cons n rs =>
    show restoreTask (if n.file_path = t.file_path ∧ t.close_after = true then
        { t with close_after := false } else t) t.close_after = t
    split
    · rfl
    · rfl

lemma effectiveTask_no_close (t : TaskConfig) (rest : List TaskConfig)
    (h : t.close_after = false) : effectiveTask t rest = t := by
  cases rest with
  | nil => rfl
  | cons n rs =>
    show (if n.file_path = t.file_path ∧ t.close_after = true then
        { t with close_after := false } else t) = t
    rw [if_neg (by simp [h])]

/-- The close-after override either leaves the record alone or only resets
its `close_after` field. -/
lemma effectiveTask_cases (t : TaskConfig) (rest : List TaskConfig) :
    effectiveTask t rest = t ∨ effectiveTask t rest = { t with close_after := false } := by
  cases rest with
  | nil => exact Or.inl rfl
  | cons n rs =>
    show (if n.file_path = t.file_path ∧ t.close_after = true then
        { t with close_after := false } else t) = t ∨
      (if n.file_path = t.file_path ∧ t.close_after = true then
        { t with close_after := false } else t) = { t with close_after := false }
    split
    · exact Or.inr rfl
    · exact Or.inl rfl

/-- The close-after override touches only `close_after`, so the recurrence
decision of the dispatched record is that of the original record. -/
lemma effectiveTask_should_skip (t : TaskConfig) (rest : List TaskConfig) (d : DateEnv) :
    should_skip_task (effectiveTask t rest).weekdays (effectiveTask t rest).skip_holiday
      (effectiveTask t rest).date_condition d =
    should_skip_task t.weekdays t.skip_holiday t.date_condition d := by
  rcases effectiveTask_cases t rest with h | h
  · rw [h]
  · rw [h]

/-- The close-after override touches only `close_after`, so the time check
of the dispatched record is that of the original record. -/
lemma effectiveTask_check_time (t : TaskConfig) (rest : List TaskConfig) (force : Bool)
    (now0 : Nat) (polls : List Poll) :
    check_time (effectiveTask t rest) force now0 polls = check_time t force now0 polls := by
  rcases effectiveTask_cases t rest with h | h
  · rw [h]
  · rw [h]
    rfl

lemma run_group_aux_records (force : Bool) (env : Nat → IterEnv) :
    ∀ (tasks : List TaskConfig) (i : Nat) (acc : Results) (st : RunnerSt),
      (run_group_aux force env tasks i acc st).2.1 = tasks := by
  intro tasks
  induction tasks with
  | nil => intro i acc st; rfl
  | cons t rest ih =>
    intro i acc st
    simp only [run_group_aux]
    split
    · rfl
    · split
      · rfl
      · split
        · simp [ih, restore_effective]
        · split
          · simp [ih, restore_effective]
          · simp [ih, restore_effective]

lemma run_group_aux_counts (force : Bool) (env : Nat → IterEnv) :
    ∀ (tasks : List TaskConfig) (i : Nat) (acc : Results) (st : RunnerSt),
      (run_group_aux force env tasks i acc st).1.success +
        (run_group_aux force env tasks i acc st).1.failed +
        (run_group_aux force env tasks i acc st).1.skipped ≤
      acc.success + acc.failed + acc.skipped + tasks.length := by
  intro tasks
  induction tasks with
  | nil => intro i acc st; simp [run_group_aux]
  | cons t rest ih =>
    intro i acc st
    simp only [run_group_aux]
    split
    · simp
    · split
      · simp
      · split
        · have := ih (i + 1) { acc with skipped := acc.skipped + 1 } st
          simp only [List.length_cons]
          simp at this ⊢
          omega
        · split
          · have := ih (i + 1) { acc with skipped := acc.skipped + 1 } st
            simp only [List.length_cons]
            simp at this ⊢
            omega
          · split
            · have := ih (i + 1) { acc with success := acc.success + 1 }
                (run_task st (effectiveTask t rest) (env i).exec force).2.1
              simp only [List.length_cons]
              simp at this ⊢
              omega
            · have := ih (i + 1) { acc with failed := acc.failed + 1 }
                (run_task st (effectiveTask t rest) (env i).exec force).2.1
              simp only [List.length_cons]
              simp at this ⊢
              omega

lemma openWb_not_in_afterOpenEvents (st : RunnerSt) (t : TaskConfig) (env : ExecEnv)
    (q : String) : REvent.openWb q ∉ afterOpenEvents st t env := by
  unfold afterOpenEvents
  intro h
  simp only [List.mem_append] at h
  rcases h with (h | h) | h <;>
  · repeat' split at h
    all_goals simp_all

/-- With `close_after = false` and a successful acquisition (reuse of the
already-open workbook, or a successful open), `run_task` ends with the
task's workbook still open and recorded as current. -/
lemma run_task_keeps_open (st : RunnerSt) (t : TaskConfig) (env : ExecEnv) (force : Bool)
    (hca : t.close_after = false)
    (hwf : st.wb = none ∨ st.wb = st.curPath)
    (hse : env.startExcelOk = true)
    (hct : check_time t force env.ctNow env.ctPolls = true)
    (hacq : (st.curPath = some t.file_path ∧ st.wb ≠ none) ∨ env.openOk = true) :
    (run_task st t env force).2.1.wb = some t.file_path ∧
    (run_task st t env force).2.1.curPath = some t.file_path := by
  unfold run_task
  rw [hct]
  simp only [Bool.not_true, Bool.false_eq_true, if_false]
  unfold runTaskBody
  rw [hse]
  simp only [Bool.not_true, Bool.false_eq_true, if_false]
  by_cases hr : st.curPath = some t.file_path ∧ st.wb ≠ none
  · rw [if_pos hr]
    have hwb : st.wb = some t.file_path := by
      rcases hwf with h | h
      · exact absurd h hr.2
      · rw [h, hr.1]
    unfold afterOpen
    by_cases hsd : t.skip_download
    · simp [hsd, hca, hwb, hr.1]
    · simp [hsd, hca, hwb, hr.1]
  · rw [if_neg hr]
    have hopen : env.openOk = true := by
      rcases hacq with h | h
      · exact absurd h hr
      · exact h
    rw [hopen]
    simp only [Bool.not_true, Bool.false_eq_true, if_false]
    unfold afterOpen
    by_cases hsd : t.skip_download
    · simp [hsd, hca]
    · simp [hsd, hca]

/-- Starting from a state in which the task's workbook is already open and
current, `run_task` takes the reuse branch: its trace holds the reuse event
and no open event at all. -/
lemma run_task_reuse_no_open (st : RunnerSt) (t : TaskConfig) (env : ExecEnv) (force : Bool)
    (hwb : st.wb = some t.file_path) (hcp : st.curPath = some t.file_path)
    (hse : env.startExcelOk = true)
    (hct : check_time t force env.ctNow env.ctPolls = true) :
    (∀ q, REvent.openWb q ∉ (run_task st t env force).2.2) ∧
    REvent.reuseWb t.file_path ∈ (run_task st t env force).2.2 := by
  unfold run_task
  rw [hct]
  simp only [Bool.not_true, Bool.false_eq_true, if_false]
  unfold runTaskBody
  rw [hse]
  simp only [Bool.not_true, Bool.false_eq_true, if_false]
  rw [if_pos ⟨hcp, by rw [hwb]; exact Option.some_ne_none _⟩]
  unfold afterOpen
  by_cases hsd : t.skip_download
  · simp only [hsd, Bool.not_true, Bool.false_eq_true, if_false]
    constructor
    · intro q hq
      by_cases hc : t.close_after = true <;>
        [rw [if_pos hc] at hq; rw [if_neg hc] at hq] <;>
      · simp only [List.cons_append, List.nil_append, List.mem_cons, List.mem_append] at hq
        rcases hq with h | h | h
        · exact absurd h (by simp)
        · exact absurd h (by simp)
        · exact openWb_not_in_afterOpenEvents st t env q h
    · by_cases hc : t.close_after = true <;>
        [rw [if_pos hc]; rw [if_neg hc]] <;> simp
  · simp only [hsd, Bool.not_false, if_true]
    by_cases hc : t.close_after = true <;> simp [hc]

lemma waitLoop_cancel (waitUntil : Nat) (pre post : List Poll) (c : Poll)
    (hpre : ∀ q ∈ pre, q.now < waitUntil ∧ q.stopRequested = false)
    (hcn : c.now < waitUntil) (hcs : c.stopRequested = true) :
    waitLoop waitUntil (pre ++ c :: post) = false := by
  induction pre with
  | nil => simp [waitLoop, hcn, hcs]
  | cons q qs ih =>
    obtain ⟨hq1, hq2⟩ := hpre q (List.mem_cons_self _ _)
    simp only [List.cons_append, waitLoop, hq1, if_pos, hq2]
    simp only [Bool.false_eq_true, if_false]
    exact ih (fun r hr => hpre r (List.mem_cons_of_mem _ hr))

/-! ## Claim theorems -/

/-- C2: `is_within_session` is the inclusive-bound membership test of the
session window: for `start_time ≤ end_time` it holds iff
`start_time ≤ now.time ≤ end_time`; for a midnight-crossing window
(`start_time > end_time`) it holds iff `now.time ≥ start_time` or
`now.time ≤ end_time`; and for the degenerate `start_time = end_time` it
holds exactly at that single time-of-day instant. -/
theorem session_window_inclusive (t : TaskConfig) (now : Nat) :
    (t.start_time ≤ t.end_time →
      (is_within_session t now = true ↔
        t.start_time ≤ timeOfDay now ∧ timeOfDay now ≤ t.end_time)) ∧
    (t.start_time > t.end_time →
      (is_within_session t now = true ↔
        timeOfDay now ≥ t.start_time ∨ timeOfDay now ≤ t.end_time)) ∧
    (t.start_time = t.end_time →
      (is_within_session t now = true ↔ timeOfDay now = t.start_time)) := by
  unfold is_within_session
  refine ⟨fun h => ?_, fun h => ?_, fun h => ?_⟩
  · simp [h]
  · rw [if_neg (by omega)]
    simp
  · simp [h]
    omega

/-- Witness for C2 at a concrete window and instant. -/
theorem session_window_inclusive_witness :
    is_within_session sampleTask 43200 = true :=
  ((session_window_inclusive sampleTask 43200).1 (by decide)).mpr (by decide)

/-- C5: `should_skip_task` evaluates weekday, then holiday, then
day-of-month, short-circuits at the first failing condition with that
condition's reason, and returns `(false, "")` exactly when all three
pass (the holiday condition "passes" unless `skip_holiday` is set and
today is a holiday). -/
theorem should_skip_task_order (w : String) (sh : Bool) (dc : String) (d : DateEnv) :
    ((should_skip_task w sh dc d).1 = false ↔
      (check_weekday_condition w d = true ∧
       (sh && is_japanese_holiday d) = false ∧
       check_date_condition dc d = true)) ∧
    ((should_skip_task w sh dc d).2 = "" ↔ (should_skip_task w sh dc d).1 = false) ∧
    (check_weekday_condition w d = false →
      should_skip_task w sh dc d = (true, weekdayReason d)) ∧
    (check_weekday_condition w d = true → (sh && is_japanese_holiday d) = true →
      should_skip_task w sh dc d = (true, holidayReason d)) ∧
    (check_weekday_condition w d = true → (sh && is_japanese_holiday d) = false →
      check_date_condition dc d = false →
      should_skip_task w sh dc d = (true, dateReason d)) := by
  unfold should_skip_task
  by_cases h1 : check_weekday_condition w d
  · by_cases h2 : sh && is_japanese_holiday d
    · simp [h1, h2, holidayReason_ne_empty d]
    · by_cases h3 : check_date_condition dc d
      · simp [h1, h2, h3]
      · simp [h1, h2, h3, dateReason_ne_empty d]
  · simp [h1, weekdayReason_ne_empty d]

/-- Witness for C5: a Saturday with a Mon-Fri weekday filter is skipped
with the weekday reason. -/
theorem should_skip_task_order_witness :
    should_skip_task "1,2,3,4,5" false "" ⟨6, 14, 31, true, false, none⟩ =
      (true, weekdayReason ⟨6, 14, 31, true, false, none⟩) :=
  (should_skip_task_order "1,2,3,4,5" false "" ⟨6, 14, 31, true, false, none⟩).2.2.1
    (by decide)

/-- C1 counterexample: with weekday filter `"x"` and day-of-month filter
`"x"` — both non-empty and unparseable: the weekday parse raises
`ValueError` and the date token is neither a digit string nor the sentinel
`"L"` — `should_skip_task` returns `skip = true`, not the claimed
`skip = false`: the weekday check fails open, but the unparseable date
token is silently ignored by `check_date_condition`'s loop, which then
returns `False`, so the task is skipped on account of the date filter. -/
theorem unparseable_filters_counterexample :
    ("x" ≠ "" ∧ pyStrip "x" ≠ "" ∧ parseWeekdayList "x" = none ∧
      (∀ c ∈ (pySplitComma "x").map (fun s => pyUpper (pyStrip s)),
        c ≠ "L" ∧ pyParseInt c = none)) ∧
    (should_skip_task "x" false "x" c1Env).1 = true := by
  constructor
  · refine ⟨by decide, by decide, by decide, ?_⟩
    intro c hc
    simp only [pySplitComma, splitCommaAux, List.map] at hc
    have : c = "X" := by
      simpa using hc
    subst this
    exact ⟨by decide, by decide⟩
  · decide

/-- C1 amended: an unparseable weekday filter does fail open (the weekday
check passes), but an unparseable day-of-month filter fails *closed*: its
tokens, being neither digit strings nor `"L"`, are silently ignored, the
date check returns false, and the task is skipped — with the date-condition
reason whenever the holiday condition has not already produced a skip. -/
theorem unparseable_filters_amended (w dc : String) (sh : Bool) (d : DateEnv)
    (hw : pyStrip w ≠ "") (hwp : parseWeekdayList w = none)
    (hdc : pyStrip dc ≠ "")
    (hda : ∀ c ∈ (pySplitComma dc).map (fun s => pyUpper (pyStrip s)),
      c ≠ "L" ∧ pyIsDigit c = false) :
    check_weekday_condition w d = true ∧
    check_date_condition dc d = false ∧
    (should_skip_task w sh dc d).1 = true ∧
    ((sh && is_japanese_holiday d) = false →
      should_skip_task w sh dc d = (true, dateReason d)) := by
  have hw0 : ¬(w = "" ∨ pyStrip w = "") := by
    rintro (rfl | h)
    · exact hw rfl
    · exact hw h
  have hdc0 : ¬(dc = "" ∨ pyStrip dc = "") := by
    rintro (rfl | h)
    · exact hdc rfl
    · exact hdc h
  have hwk : check_weekday_condition w d = true := by
    unfold check_weekday_condition
    rw [if_neg (by simpa using hw0)]
    rw [hwp]
  have hdt : check_date_condition dc d = false := by
    unfold check_date_condition
    rw [if_neg (by simpa using hdc0)]
    rw [List.any_eq_false]
    intro c hc
    obtain ⟨hL, hD⟩ := hda c hc
    simp [hL, hD]
  refine ⟨hwk, hdt, ?_, ?_⟩
  · unfold should_skip_task
    rw [hwk, hdt]
    by_cases h2 : sh && is_japanese_holiday d <;> simp [h2]
  · intro h2
    unfold should_skip_task
    rw [hwk, hdt, h2]
    simp

/-- C6: the ordering operation clusters the group's tasks by `file_path`
(each output segment holds exactly the tasks of one path), the clusters
appear in first-seen order of the input, each cluster is ascending in
`start_time`, and tasks of equal `start_time` keep their input order
(stability, stated as: the sublist with any fixed start-time value is
unchanged by the per-cluster sort). -/
theorem ordering_clusters (tasks : List TaskConfig) (g : String) :
    get_tasks_by_group_optimized tasks g =
      ((firstSeen ((tasks.filter (fun t => t.group = g)).map (fun t => t.file_path))).map
        (fun p => sortByStart ((tasks.filter (fun t => t.group = g)).filter
          (fun t => t.file_path = p)))).flatten ∧
    (firstSeen ((tasks.filter (fun t => t.group = g)).map (fun t => t.file_path))).Nodup ∧
    (∀ p, List.Sorted startLE
      (sortByStart ((tasks.filter (fun t => t.group = g)).filter
        (fun t => t.file_path = p)))) ∧
    (∀ p t, t ∈ sortByStart ((tasks.filter (fun t => t.group = g)).filter
        (fun t => t.file_path = p)) → t.file_path = p) ∧
    (∀ p v, (sortByStart ((tasks.filter (fun t => t.group = g)).filter
        (fun t => t.file_path = p))).filter (fun t => t.start_time = v) =
      ((tasks.filter (fun t => t.group = g)).filter (fun t => t.file_path = p)).filter
        (fun t => t.start_time = v)) := by
  refine ⟨opt_canonical tasks g, firstSeen_nodup _, fun p => sortByStart_sorted _, ?_,
    fun p v => sortByStart_filter_start v _⟩
  intro p t ht
  have hmem := mem_sortByStart.mp ht
  have := (List.mem_filter.mp hmem).2
  simpa using this

/-- Witness for C6 on a concrete three-task list: the task found in the
`"A.xlsx"` cluster indeed targets `"A.xlsx"`. -/
theorem ordering_clusters_witness :
    sampleTask2.file_path = "A.xlsx" :=
  (ordering_clusters [sampleTask, sampleTask3, sampleTask2] "G").2.2.2.1
    "A.xlsx" sampleTask2 (by decide)

/-- C10: the ordering operation is idempotent — re-ordering its own output
(for the same group) returns that output unchanged. -/
theorem ordering_idempotent (tasks : List TaskConfig) (g : String) :
    get_tasks_by_group_optimized (get_tasks_by_group_optimized tasks g) g =
      get_tasks_by_group_optimized tasks g := by
  set ing := tasks.filter (fun t => t.group = g) with hing
  set paths := firstSeen (ing.map (fun t => t.file_path)) with hpaths
  set out := get_tasks_by_group_optimized tasks g with hout
  have hcanon : out =
      (paths.map (fun p => sortByStart (ing.filter (fun t => t.file_path = p)))).flatten :=
    opt_canonical tasks g
  have hgroup : ∀ t ∈ out, t.group = g := by
    intro t ht
    rw [hcanon, List.mem_flatten] at ht
    obtain ⟨l, hl, htl⟩ := ht
    rw [List.mem_map] at hl
    obtain ⟨p, _hp, rfl⟩ := hl
    have h1 := mem_sortByStart.mp htl
    have h2 := (List.mem_filter.mp h1).1
    have h3 := (List.mem_filter.mp h2).2
    simpa using h3
  have hfself : out.filter (fun t => t.group = g) = out :=
    List.filter_eq_self.mpr (by intro t ht; simpa using hgroup t ht)
  by_cases hempty : out.isEmpty
  · rw [List.isEmpty_iff] at hempty
    rw [hempty]
    simp [get_tasks_by_group_optimized]
  · rw [get_tasks_by_group_optimized, hfself, if_neg hempty]
    have hL : groupByFilePath out =
        paths.map (fun p => (p, sortByStart (ing.filter (fun t => t.file_path = p)))) := by
      have hflat : ((paths.map (fun p =>
          (p, sortByStart (ing.filter (fun t => t.file_path = p))))).map Prod.snd).flatten
          = out := by
        rw [List.map_map]
        exact hcanon.symm
      rw [← hflat]
      apply groupByFilePath_flatten
      · intro kv hkv
        rw [List.mem_map] at hkv
        obtain ⟨p, hp, rfl⟩ := hkv
        have hpimg := mem_firstSeen.mp hp
        rw [List.mem_map] at hpimg
        obtain ⟨t, htmem, htp⟩ := hpimg
        intro hnil
        have hnil' : sortByStart (ing.filter (fun t => t.file_path = p)) = [] := hnil
        have htf : t ∈ ing.filter (fun t => t.file_path = p) :=
          List.mem_filter.mpr ⟨htmem, by simpa using htp⟩
        have : t ∈ sortByStart (ing.filter (fun t => t.file_path = p)) :=
          mem_sortByStart.mpr htf
        rw [hnil'] at this
        exact List.not_mem_nil t this
      · intro kv hkv t htkv
        rw [List.mem_map] at hkv
        obtain ⟨p, _hp, rfl⟩ := hkv
        have h1 := mem_sortByStart.mp htkv
        have h2 := (List.mem_filter.mp h1).2
        simpa using h2
      · rw [List.map_map]
        have : (Prod.fst ∘ fun p =>
            (p, sortByStart (ing.filter (fun t => t.file_path = p)))) = id := by
          funext p
          rfl
        rw [this, List.map_id]
        exact firstSeen_nodup _
    rw [hL, List.map_map]
    have hmapeq : ((fun kv : String × List TaskConfig => sortByStart kv.2) ∘ fun p =>
        (p, sortByStart (ing.filter (fun t => t.file_path = p)))) =
        fun p => sortByStart (ing.filter (fun t => t.file_path = p)) := by
      funext p
      exact sortByStart_idem _
    rw [hmapeq]
    exact hcanon.symm

/-- Witness for the amended C1 at the counterexample input. -/
theorem unparseable_filters_amended_witness :
    check_weekday_condition "x" c1Env = true ∧
    check_date_condition "x" c1Env = false ∧
    (should_skip_task "x" false "x" c1Env).1 = true ∧
    ((false && is_japanese_holiday c1Env) = false →
      should_skip_task "x" false "x" c1Env = (true, dateReason c1Env)) := by
  refine unparseable_filters_amended "x" "x" false c1Env (by decide) (by decide)
    (by decide) ?_
  intro c hc
  have : c = "X" := by
    simp only [pySplitComma, splitCommaAux, List.map] at hc
    simpa using hc
  subst this
  exact ⟨by decide, by decide⟩

/-- C3: cancellation during the wait-for-start loop.  (i) The wait loop
aborts at the first wake-up that observes `stop_requested`, regardless of
any later polls (one polling increment).  (ii) Under the conditions that
send `check_time` into its wait (window not yet open), a cancelled poll
makes `check_time` return ineligible.  (iii) In the batch loop, a task
whose (non-force) time check fails while recurrence passed is recorded as
skipped — success and failed counts untouched — the record's `close_after`
is restored, the runner state is untouched, and, the cancellation flag
staying set, the loop breaks before attempting any subsequent task. -/
theorem cancellation_during_wait :
    (∀ (waitUntil : Nat) (pre post : List Poll) (c : Poll),
      (∀ q ∈ pre, q.now < waitUntil ∧ q.stopRequested = false) →
      c.now < waitUntil → c.stopRequested = true →
      waitLoop waitUntil (pre ++ c :: post) = false) ∧
    (∀ (t : TaskConfig) (now0 : Nat) (pre post : List Poll) (c : Poll),
      ((t.start_time > t.end_time ∧ t.end_time < timeOfDay now0 ∧
          timeOfDay now0 < t.start_time) ∨
        (t.start_time ≤ t.end_time ∧ timeOfDay now0 ≤ t.end_time ∧
          timeOfDay now0 < t.start_time)) →
      (∀ q ∈ pre, q.now < now0 - timeOfDay now0 + t.start_time ∧
        q.stopRequested = false) →
      c.now < now0 - timeOfDay now0 + t.start_time → c.stopRequested = true →
      check_time t false now0 (pre ++ c :: post) = false) ∧
    (∀ (env : Nat → IterEnv) (t : TaskConfig) (rest : List TaskConfig) (i : Nat)
       (acc : Results) (st : RunnerSt),
      (env i).stopTop = false →
      (env i).stopAfterPause = false →
      (should_skip_task t.weekdays t.skip_holiday t.date_condition (env i).dateEnv).1 =
        false →
      check_time t false (env i).ctNow (env i).ctPolls = false →
      (∀ j, i < j → (env j).stopTop = true) →
      run_group_aux false env (t :: rest) i acc st =
        ({ acc with skipped := acc.skipped + 1 }, t :: rest, st)) := by
  refine ⟨waitLoop_cancel, ?_, ?_⟩
  · intro t now0 pre post c hentry hpre hcn hcs
    have hmod : timeOfDay now0 ≤ now0 := Nat.mod_le _ _
    have hins : is_within_session t now0 = false := by
      unfold is_within_session
      rcases hentry with ⟨h1, h2, h3⟩ | ⟨h1, h2, h3⟩
      · rw [if_neg (by omega)]
        simp
        omega
      · rw [if_pos h1]
        simp
        omega
    unfold check_time
    rw [if_neg (by simp)]
    rw [hins]
    rw [if_neg (by simp)]
    rcases hentry with ⟨h1, h2, h3⟩ | ⟨h1, h2, h3⟩
    · rw [if_neg (by simp; omega)]
      rw [if_neg (by simp; omega)]
      rw [if_neg (by omega)]
      exact waitLoop_cancel _ pre post c hpre hcn hcs
    · rw [if_neg (by simp; omega)]
      rw [if_neg (by simp; omega)]
      rw [if_neg (by omega)]
      exact waitLoop_cancel _ pre post c hpre hcn hcs
  · intro env t rest i acc st h1 h2 h3 h4 h5
    have hss := effectiveTask_should_skip t rest (env i).dateEnv
    have hct := effectiveTask_check_time t rest false (env i).ctNow (env i).ctPolls
    have hrt := restore_effective t rest
    have hstop := h5 (i + 1) (Nat.lt_succ_self i)
    cases rest with
    | nil => simp [run_group_aux, hss, hct, h1, h2, h3, h4, hrt]
    | cons t2 rs => simp [run_group_aux, hss, hct, h1, h2, h3, h4, hrt, hstop]

/-- Witness for C3: a task with a 10:00-12:00 window and the close-after
policy set, polled at 09:00, the single wake-up observing the cancellation
flag: the task is skipped, both records (including the flipped-and-restored
`close_after`) are returned untouched, the batch stopped. -/
theorem cancellation_during_wait_witness :
    run_group_aux false c3Env [c3TaskB, sampleTask] 0 ⟨0, 0, 0⟩ ⟨none, none⟩ =
      (⟨0, 0, 1⟩, [c3TaskB, sampleTask], ⟨none, none⟩) := by
  have h := cancellation_during_wait.2.2 c3Env c3TaskB [sampleTask] 0 ⟨0, 0, 0⟩
    ⟨none, none⟩ (by decide) (by decide) (by decide)
    (cancellation_during_wait.2.1 c3TaskB 32400 [] [] ⟨32400, true, false⟩
      (by decide) (by decide) (by decide) (by decide))
    (by
      intro j hj
      unfold c3Env
      rw [if_neg (by omega)]
      rfl)
  exact h

/-- C4: the smart close-after override — a task whose successor in the
computed order targets the same `file_path` is dispatched with `close_after`
forced to `false` — and the frame property that `run_group` hands every
record back with its original `close_after`: on every exit path of an
iteration (break, recurrence skip, time skip, success, failure) the list of
records returned equals the input list. -/
theorem close_after_override_restored :
    (∀ (tasks : List TaskConfig) (force : Bool) (env : Nat → IterEnv) (st : RunnerSt),
      (run_group tasks force env st).2.1 = tasks) ∧
    (∀ (t n : TaskConfig) (rest : List TaskConfig),
      n.file_path = t.file_path → t.close_after = true →
      (effectiveTask t (n :: rest)).close_after = false) := by
  constructor
  · intro tasks force env st
    exact run_group_aux_records force env tasks 0 ⟨0, 0, 0⟩ st
  · intro t n rest h1 h2
    show (if n.file_path = t.file_path ∧ t.close_after = true then
        { t with close_after := false } else t).close_after = false
    rw [if_pos ⟨h1, h2⟩]

/-- Witness for C4: a task configured `close_after = true` whose successor
shares its file is dispatched with the policy off. -/
theorem close_after_override_restored_witness :
    (effectiveTask { sampleTask with close_after := true } [sampleTask2]).close_after =
      false :=
  close_after_override_restored.2 { sampleTask with close_after := true } sampleTask2 []
    (by decide) (by decide)

/-- C8: exception confinement.  (i) Whenever the `try` body of `run_task`
raises, `run_task` still returns, with a `False` (failed) outcome.  (ii) In
the batch loop a dispatched task whose `run_task` returns `False` adds one
to the failed count and the loop continues with the remaining tasks.
(iii) `run_group` always returns a result record whose three counters total
at most the number of tasks. -/
theorem exceptions_confined :
    (∀ (st : RunnerSt) (t : TaskConfig) (env : ExecEnv) (force : Bool)
       (st' : RunnerSt) (tr : List REvent),
      runTaskBody st t env = .exn st' tr → (run_task st t env force).1 = false) ∧
    (∀ (force : Bool) (env : Nat → IterEnv) (t : TaskConfig) (rest : List TaskConfig)
       (i : Nat) (acc : Results) (st : RunnerSt),
      (env i).stopTop = false →
      (env i).stopAfterPause = false →
      (should_skip_task (effectiveTask t rest).weekdays (effectiveTask t rest).skip_holiday
        (effectiveTask t rest).date_condition (env i).dateEnv).1 = false →
      check_time (effectiveTask t rest) force (env i).ctNow (env i).ctPolls = true →
      (run_task st (effectiveTask t rest) (env i).exec force).1 = false →
      run_group_aux force env (t :: rest) i acc st =
        ((run_group_aux force env rest (i + 1) { acc with failed := acc.failed + 1 }
            (run_task st (effectiveTask t rest) (env i).exec force).2.1).1,
         restoreTask (effectiveTask t rest) t.close_after ::
           (run_group_aux force env rest (i + 1) { acc with failed := acc.failed + 1 }
             (run_task st (effectiveTask t rest) (env i).exec force).2.1).2.1,
         (run_group_aux force env rest (i + 1) { acc with failed := acc.failed + 1 }
           (run_task st (effectiveTask t rest) (env i).exec force).2.1).2.2)) ∧
    (∀ (tasks : List TaskConfig) (force : Bool) (env : Nat → IterEnv) (st : RunnerSt),
      (run_group tasks force env st).1.success + (run_group tasks force env st).1.failed +
        (run_group tasks force env st).1.skipped ≤ tasks.length) := by
  refine ⟨?_, ?_, ?_⟩
  · intro st t env force st' tr hexn
    unfold run_task
    by_cases hct : check_time t force env.ctNow env.ctPolls
    · rw [hct]
      simp only [Bool.not_true, Bool.false_eq_true, if_false]
      rw [hexn]
      by_cases hc : t.close_after = true <;> simp [hc]
    · simp only [Bool.not_eq_true] at hct
      rw [hct]
      simp
  · intro force env t rest i acc st h1 h2 h3 h4 h5
    simp [run_group_aux, h1, h2, h3, h4, h5]
  · intro tasks force env st
    have := run_group_aux_counts force env tasks 0 ⟨0, 0, 0⟩ st
    simpa [run_group] using this

/-- Witness for C8: `run_task` on a task with the download step enabled
(whose `task.search_key` access raises `AttributeError`) returns a failed
outcome rather than propagating. -/
theorem exceptions_confined_witness :
    (run_task ⟨none, none⟩ sampleTask okExec true).1 = false :=
  exceptions_confined.1 ⟨none, none⟩ sampleTask okExec true
    ⟨some "A.xlsx", some "A.xlsx"⟩ [.startEx true, .openWb "A.xlsx"] (by decide)

/-- C9: a PAUSE task whose blocking prompt is acknowledged and whose
subsequent save fails still returns success: `run_task` yields `True` (the
task counts as succeeded) and the failed save appears in the trace only as
a logged save event. -/
theorem pause_save_failure_still_success (st : RunnerSt) (t : TaskConfig)
    (env : ExecEnv) (force : Bool)
    (hact : pyUpper t.action_after = "PAUSE")
    (hsd : t.skip_download = true)
    (hct : check_time t force env.ctNow env.ctPolls = true)
    (hse : env.startExcelOk = true)
    (hacq : (st.curPath = some t.file_path ∧ st.wb ≠ none) ∨ env.openOk = true)
    (hshow : env.showInfoRaises = false)
    (hsave : env.saveOk = false) :
    (run_task st t env force).1 = true ∧
    REvent.saveWb false ∈ (run_task st t env force).2.2 := by
  unfold run_task
  rw [hct]
  simp only [Bool.not_true, Bool.false_eq_true, if_false]
  unfold runTaskBody
  rw [hse]
  simp only [Bool.not_true, Bool.false_eq_true, if_false]
  by_cases hr : st.curPath = some t.file_path ∧ st.wb ≠ none
  · rw [if_pos hr]
    unfold afterOpen
    rw [hsd]
    simp only [Bool.not_true, Bool.false_eq_true, if_false]
    have hmem : REvent.saveWb false ∈ afterOpenEvents st t env := by
      unfold afterOpenEvents
      rw [hact, hshow]
      rw [if_pos rfl]
      simp [hr.2, hsave]
    by_cases hc : t.close_after = true <;> simp [hc, hmem]
  · rw [if_neg hr]
    have hopen : env.openOk = true := by
      rcases hacq with h | h
      · exact absurd h hr
      · exact h
    rw [hopen]
    simp only [Bool.not_true, Bool.false_eq_true, if_false]
    unfold afterOpen
    rw [hsd]
    simp only [Bool.not_true, Bool.false_eq_true, if_false]
    have hmem : REvent.saveWb false ∈
        afterOpenEvents ⟨some t.file_path, some t.file_path⟩ t env := by
      unfold afterOpenEvents
      rw [hact, hshow]
      rw [if_pos rfl]
      simp [hsave]
    by_cases hc : t.close_after = true <;> simp [hc, hmem]

/-- Witness for C9: the PAUSE sample task with a failing save still
succeeds, with the failed save logged in the trace. -/
theorem pause_save_failure_still_success_witness :
    (run_task ⟨none, none⟩ pauseTask saveFailExec true).1 = true ∧
    REvent.saveWb false ∈ (run_task ⟨none, none⟩ pauseTask saveFailExec true).2.2 :=
  pause_save_failure_still_success ⟨none, none⟩ pauseTask saveFailExec true
    (by decide) (by decide) (by decide) (by decide) (Or.inr (by decide))
    (by decide) (by decide)

/-- C7: two consecutive tasks on the same `file_path`, the first with
`close_after = false` and a successful acquisition, never close-and-reopen
the resource between them: after the first task the workbook is still open
and current, and the second task's trace contains the reuse event and no
open event whatsoever (its open step is skipped). -/
theorem resource_reuse_no_close_reopen (st0 : RunnerSt) (t1 t2 : TaskConfig)
    (env1 env2 : ExecEnv) (force1 force2 : Bool)
    (hca : t1.close_after = false)
    (hfp : t2.file_path = t1.file_path)
    (hwf : st0.wb = none ∨ st0.wb = st0.curPath)
    (hse1 : env1.startExcelOk = true)
    (hct1 : check_time t1 force1 env1.ctNow env1.ctPolls = true)
    (hacq : (st0.curPath = some t1.file_path ∧ st0.wb ≠ none) ∨ env1.openOk = true)
    (hse2 : env2.startExcelOk = true)
    (hct2 : check_time t2 force2 env2.ctNow env2.ctPolls = true) :
    (run_task st0 t1 env1 force1).2.1.wb = some t1.file_path ∧
    (run_task st0 t1 env1 force1).2.1.curPath = some t1.file_path ∧
    (∀ q, REvent.openWb q ∉
      (run_task (run_task st0 t1 env1 force1).2.1 t2 env2 force2).2.2) ∧
    REvent.reuseWb t2.file_path ∈
      (run_task (run_task st0 t1 env1 force1).2.1 t2 env2 force2).2.2 := by
  obtain ⟨hwb1, hcp1⟩ :=
    run_task_keeps_open st0 t1 env1 force1 hca hwf hse1 hct1 hacq
  have h2 := run_task_reuse_no_open (run_task st0 t1 env1 force1).2.1 t2 env2 force2
    (by rw [hwb1, hfp]) (by rw [hcp1, hfp]) hse2 hct2
  exact ⟨hwb1, hcp1, h2.1, h2.2⟩

/-- Witness for C7: two PAUSE tasks on `"A.xlsx"` in force mode, the first
run from a fresh state: the workbook stays open, the second run reuses it
and performs no open. -/
theorem resource_reuse_no_close_reopen_witness :
    (run_task ⟨none, none⟩ pauseTask okExec true).2.1.wb = some pauseTask.file_path ∧
    (run_task ⟨none, none⟩ pauseTask okExec true).2.1.curPath =
      some pauseTask.file_path ∧
    (∀ q, REvent.openWb q ∉
      (run_task (run_task ⟨none, none⟩ pauseTask okExec true).2.1 pauseTask okExec
        true).2.2) ∧
    REvent.reuseWb pauseTask.file_path ∈
      (run_task (run_task ⟨none, none⟩ pauseTask okExec true).2.1 pauseTask okExec
        true).2.2 :=
  resource_reuse_no_close_reopen ⟨none, none⟩ pauseTask pauseTask okExec okExec
    true true (by decide) (by decide) (Or.inl (by decide)) (by decide) (by decide)
    (Or.inr (by decide)) (by decide) (by decide)

end KaiSystem
